import Mathlib

/-!
Verification of the ip-navigator-cli specification against its code.

The repository is a thin command-line front end (commander.js wiring in
src/src/lib and the operation/conversion command files) over the external
ip-navigator npm library.  The library's own source is not part of the
repository, so every core arithmetic/validation function (address parsing,
integer conversion, mask/CIDR conversion, subnet math, classification,
range enumeration) is modelled here from the specification's contracts
(spec.md section 4), while the command-level logic (input gating, JS
parseInt semantics, loops, exit codes, plain-mode output) is embedded
directly from the TypeScript sources.

Addresses are 32-bit unsigned integers represented as Nat with explicit
bounds; dotted-decimal strings are handled through an executable
split/parse layer so that command-level claims about raw string inputs
can be evaluated on concrete data.
-/

/-- Splitting accumulator: walks the character list, cutting at each
occurrence of the separator.  Mirrors the behaviour of the string split
used by the JS code (`s.split(".")`) on the character level. -/
def splitOnAux (c : Char) : List Char → List Char → List (List Char)
  | [], acc => [acc.reverse]
  | x :: xs, acc =>
    if x = c then acc.reverse :: splitOnAux c xs []
    else splitOnAux c xs (x :: acc)

/-- Split a character list on a separator character; adjacent separators
produce empty tokens, like JS `String.prototype.split`. -/
def splitOnChar (c : Char) (l : List Char) : List (List Char) :=
  splitOnAux c l []

/-- Numeric value of a decimal digit character. -/
def digitVal (ch : Char) : Nat := ch.toNat - 48

/-- Value of a list of decimal digit characters, most significant first. -/
def decValue (l : List Char) : Nat :=
  l.foldl (fun acc ch => acc * 10 + digitVal ch) 0

/-- Parse a token as an unsigned plain-decimal integer: non-empty, digits
only (no sign, no whitespace, no hex/octal forms), per spec section 4.1. -/
def parseDec? (l : List Char) : Option Nat :=
  if l.isEmpty then none
  else if l.all Char.isDigit then some (decValue l)
  else none


/-- Parse one dotted-decimal octet: a plain decimal integer in [0,255]. -/
def parseOctet? (l : List Char) : Option Nat :=
  (parseDec? l).bind (fun v => if v ≤ 255 then some v else none)

/-- Combine four parsed octet tokens into the 32-bit address value;
`none` as soon as one token is malformed or out of range. -/
def combineOctets? (t1 t2 t3 t4 : List Char) : Option Nat :=
  (parseOctet? t1).bind fun o1 =>
    (parseOctet? t2).bind fun o2 =>
      (parseOctet? t3).bind fun o3 =>
        (parseOctet? t4).map fun o4 =>
          o1 * 16777216 + o2 * 65536 + o3 * 256 + o4

/-- Address value from the dot-split token list: exactly four tokens
are required, anything else is malformed. -/
def ipFromTokens? : List (List Char) → Option Nat
  | [t1, t2, t3, t4] => combineOctets? t1 t2 t3 t4
  | _ => none

/-- Modelled from the spec: `parseAddress` / `ipToInteger` of the
ip-navigator library (not in the repository).  Accepts exactly four
dot-separated tokens, each a plain base-10 integer in [0,255]; returns
the 32-bit integer value, `none` on any malformed input. -/
def ipToIntegerL? (l : List Char) : Option Nat :=
  ipFromTokens? (splitOnChar '.' l)

/-- Modelled from the spec: string-level address-to-integer conversion of
the ip-navigator library (not in the repository). -/
def ipToInteger? (s : String) : Option Nat := ipToIntegerL? s.data

/-- Modelled from the spec: `isValidIPAddress` of the ip-navigator
library (not in the repository): a string is a valid IPv4 address iff it
parses as four in-range dotted-decimal octets. -/
def isValidIPAddress (s : String) : Bool := (ipToInteger? s).isSome

/-- Modelled from the spec: `integerToIP` of the ip-navigator library
(not in the repository): render a 32-bit integer as canonical
dotted-decimal text. -/
def integerToIP (n : Nat) : String :=
  toString (n / 16777216 % 256) ++ "." ++ toString (n / 65536 % 256) ++ "." ++
    toString (n / 256 % 256) ++ "." ++ toString (n % 256)

/-- Total numeric value of an address string (0 for invalid input); used
only to state numeric-ordering properties of printed address lists. -/
def ipNum (s : String) : Nat := (ipToInteger? s).getD 0

-- Sanity checks of the model on the spec's concrete examples.
example : ipToInteger? "192.168.1.1" = some 3232235777 := by decide
example : isValidIPAddress "256.1.1.1" = false := by decide
example : isValidIPAddress "1.2.3" = false := by decide
example : isValidIPAddress " 1.2.3.4" = false := by decide
example : integerToIP 3232235777 = "192.168.1.1" := by decide

/-! ### Splitting lemmas -/

theorem splitOnAux_no_sep (c : Char) (xs acc : List Char)
    (h : ∀ x ∈ xs, x ≠ c) : splitOnAux c xs acc = [acc.reverse ++ xs] := by
  induction xs generalizing acc with
  | nil => simp [splitOnAux]
  | cons x xs ih =>
    have hx : x ≠ c := h x (List.mem_cons_self x xs)
    simp only [splitOnAux, if_neg hx]
    rw [ih (x :: acc) (fun y hy => h y (List.mem_cons_of_mem x hy))]
    simp

theorem splitOnAux_sep (c : Char) (xs ys acc : List Char)
    (h : ∀ x ∈ xs, x ≠ c) :
    splitOnAux c (xs ++ c :: ys) acc =
      (acc.reverse ++ xs) :: splitOnAux c ys [] := by
  induction xs generalizing acc with
  | nil => simp [splitOnAux]
  | cons x xs ih =>
    have hx : x ≠ c := h x (List.mem_cons_self x xs)
    simp only [List.cons_append, splitOnAux, if_neg hx, List.append_eq]
    rw [ih (x :: acc) (fun y hy => h y (List.mem_cons_of_mem x hy))]
    simp

/-- Splitting a four-token dotted list recovers the four tokens, provided
no token contains the separator. -/
theorem splitOnChar_four (c : Char) (t1 t2 t3 t4 : List Char)
    (h1 : ∀ x ∈ t1, x ≠ c) (h2 : ∀ x ∈ t2, x ≠ c)
    (h3 : ∀ x ∈ t3, x ≠ c) (h4 : ∀ x ∈ t4, x ≠ c) :
    splitOnChar c (t1 ++ c :: (t2 ++ c :: (t3 ++ c :: t4))) =
      [t1, t2, t3, t4] := by
  unfold splitOnChar
  rw [splitOnAux_sep c t1 _ [] h1]
  rw [splitOnAux_sep c t2 _ [] h2]
  rw [splitOnAux_sep c t3 _ [] h3]
  rw [splitOnAux_no_sep c t4 [] h4]
  simp

/-! ### Octet print/parse facts (finite checks) -/

set_option maxRecDepth 10000

/-- Every octet value k < 256 prints as a token that parses back to k. -/
theorem octet_roundtrip : ∀ k, k < 256 → parseOctet? (toString k).data = some k := by
  decide

/-- Printed octet tokens never contain the dot separator. -/
theorem octet_no_dot : ∀ k, k < 256 → ∀ x ∈ (toString k).data, x ≠ '.' := by
  decide

/-- Character-list decomposition of the printed dotted-decimal form. -/
theorem integerToIP_data (n : Nat) :
    (integerToIP n).data =
      (toString (n / 16777216 % 256)).data ++ '.' ::
        ((toString (n / 65536 % 256)).data ++ '.' ::
          ((toString (n / 256 % 256)).data ++ '.' :: (toString (n % 256)).data)) := by
  have hdot : (".").data = ['.'] := rfl
  simp [integerToIP, String.data_append, hdot, List.append_assoc]

/-- Recombining the four octet fields of a 32-bit integer gives it back. -/
theorem octet_recompose (n : Nat) (h : n < 4294967296) :
    n / 16777216 % 256 * 16777216 + n / 65536 % 256 * 65536 +
      n / 256 % 256 * 256 + n % 256 = n := by
  have e1 : n / 256 / 256 = n / 65536 := by rw [Nat.div_div_eq_div_mul]
  have e2 : n / 65536 / 256 = n / 16777216 := by rw [Nat.div_div_eq_div_mul]
  have e3 : n / 16777216 / 256 = n / 4294967296 := by rw [Nat.div_div_eq_div_mul]
  have e4 : n / 4294967296 = 0 := Nat.div_eq_of_lt h
  omega

/-- Round trip: printing any 32-bit integer as dotted decimal and parsing
it back recovers the integer. -/
theorem ipToInteger_integerToIP (n : Nat) (h : n < 4294967296) :
    ipToInteger? (integerToIP n) = some n := by
  have ho1 : n / 16777216 % 256 < 256 := Nat.mod_lt _ (by norm_num)
  have ho2 : n / 65536 % 256 < 256 := Nat.mod_lt _ (by norm_num)
  have ho3 : n / 256 % 256 < 256 := Nat.mod_lt _ (by norm_num)
  have ho4 : n % 256 < 256 := Nat.mod_lt _ (by norm_num)
  show ipToIntegerL? (integerToIP n).data = some n
  unfold ipToIntegerL?
  rw [integerToIP_data n]
  rw [splitOnChar_four '.' _ _ _ _
    (octet_no_dot _ ho1) (octet_no_dot _ ho2) (octet_no_dot _ ho3) (octet_no_dot _ ho4)]
  show combineOctets? _ _ _ _ = some n
  unfold combineOctets?
  rw [octet_roundtrip _ ho1, octet_roundtrip _ ho2, octet_roundtrip _ ho3,
    octet_roundtrip _ ho4]
  simp only [Option.some_bind, Option.map_some', Option.some.injEq]
  exact octet_recompose n h

/-- Parsed octets are at most 255. -/
theorem parseOctet_le (l : List Char) (v : Nat) (h : parseOctet? l = some v) :
    v ≤ 255 := by
  unfold parseOctet? at h
  cases hd : parseDec? l with
  | none => rw [hd] at h; simp at h
  | some w =>
    rw [hd] at h
    by_cases hw : w ≤ 255
    · simp only [Option.some_bind, if_pos hw, Option.some.injEq] at h
      omega
    · simp [hw] at h

/-- Every successfully parsed address value is a 32-bit integer. -/
theorem ipToInteger_lt (s : String) (a : Nat) (h : ipToInteger? s = some a) :
    a < 4294967296 := by
  unfold ipToInteger? ipToIntegerL? at h
  rcases hts : splitOnChar '.' s.data with _ | ⟨t1, _ | ⟨t2, _ | ⟨t3, _ | ⟨t4, _ | ⟨t5, rest⟩⟩⟩⟩⟩ <;>
    rw [hts] at h <;> simp only [ipFromTokens?] at h
  · exact absurd h (by simp)
  · exact absurd h (by simp)
  · exact absurd h (by simp)
  · exact absurd h (by simp)
  · simp only [combineOctets?, Option.bind_eq_some, Option.map_eq_some'] at h
    obtain ⟨o1, h1, o2, h2, o3, h3, o4, h4, rfl⟩ := h
    have l1 := parseOctet_le t1 o1 h1
    have l2 := parseOctet_le t2 o2 h2
    have l3 := parseOctet_le t3 o3 h3
    have l4 := parseOctet_le t4 o4 h4
    omega
  · exact absurd h (by simp)

/-! ### Subnet masks and CIDR conversion -/

/-- Modelled from the spec: the mask bit pattern of a CIDR value, per the
data-model formula `0xFFFFFFFF << (32 - p)` truncated to 32 bits
(ip-navigator `cidrToSubnetMask`, integer part; not in the repository). -/
def cidrMaskInt (p : Nat) : Nat := (4294967295 <<< (32 - p)) % 4294967296

/-- Modelled from the spec: `subnetMaskToCIDR` of the ip-navigator
library (not in the repository), integer part: the CIDR value of a
contiguous mask, `none` for non-contiguous bit patterns. -/
def maskToCIDR? (m : Nat) : Option Nat :=
  (List.range 33).find? (fun p => cidrMaskInt p == m)

/-- Modelled from the spec: `cidrToSubnetMask` of the ip-navigator
library (not in the repository): dotted-decimal mask of a CIDR value. -/
def cidrToSubnetMask (p : Nat) : String := integerToIP (cidrMaskInt p)

/-- Modelled from the spec: string-level `subnetMaskToCIDR` of the
ip-navigator library (not in the repository). -/
def subnetMaskToCIDR? (s : String) : Option Nat :=
  (ipToInteger? s).bind maskToCIDR?

/-- Modelled from the spec: `isValidSubnetMask` of the ip-navigator
library (not in the repository): parses as an address and the bit
pattern is contiguous. -/
def isValidSubnetMask (s : String) : Bool := (subnetMaskToCIDR? s).isSome

/-- Modelled from the spec: `cidrToMask` on an arbitrary integer input,
failing (OutOfRange) outside [0,32], per spec section 4.1. -/
def cidrToMask? (p : Int) : Option Nat :=
  if 0 ≤ p ∧ p ≤ 32 then some (cidrMaskInt p.toNat) else none

example : cidrToSubnetMask 24 = "255.255.255.0" := by decide
example : isValidSubnetMask "255.255.255.0" = true := by decide
example : isValidSubnetMask "255.0.255.0" = false := by decide

/-- Closed form of the mask pattern: all-ones above the host bits. -/
theorem cidrMaskInt_eq (p : Nat) (hp : p ≤ 32) :
    cidrMaskInt p = 4294967296 - 2 ^ (32 - p) := by
  unfold cidrMaskInt
  rw [Nat.shiftLeft_eq]
  have hk : 2 ^ (32 - p) ≤ 4294967296 := by
    calc 2 ^ (32 - p) ≤ 2 ^ 32 := Nat.pow_le_pow_right (by norm_num) (by omega)
    _ = 4294967296 := by norm_num
  have hx1 : 1 ≤ 2 ^ (32 - p) := Nat.one_le_two_pow
  have hsplit : 4294967295 * 2 ^ (32 - p) =
      4294967296 * (2 ^ (32 - p) - 1) + (4294967296 - 2 ^ (32 - p)) := by omega
  rw [hsplit, Nat.mul_add_mod]
  exact Nat.mod_eq_of_lt (by omega)

/-- The mask pattern as a shifted block of p one-bits. -/
theorem cidrMaskInt_shift (p : Nat) (hp : p ≤ 32) :
    cidrMaskInt p = (2 ^ p - 1) <<< (32 - p) := by
  rw [cidrMaskInt_eq p hp, Nat.shiftLeft_eq]
  have hpow : 2 ^ p * 2 ^ (32 - p) = 4294967296 := by
    rw [← pow_add]
    norm_num [show p + (32 - p) = 32 by omega]
  rw [Nat.sub_mul, one_mul, hpow]

/-- Masks are 32-bit values. -/
theorem cidrMaskInt_lt (p : Nat) : cidrMaskInt p < 4294967296 :=
  Nat.mod_lt _ (by norm_num)

/-- Bit pattern of the mask: bit j is set exactly for the p high bits. -/
theorem cidrMaskInt_testBit (p : Nat) (hp : p ≤ 32) (j : Nat) :
    (cidrMaskInt p).testBit j = (decide (32 - p ≤ j) && decide (j < 32)) := by
  rw [cidrMaskInt_shift p hp, Nat.testBit_shiftLeft, Nat.testBit_two_pow_sub_one]
  by_cases h1 : 32 - p ≤ j
  · by_cases h2 : j < 32
    · simp [ge_iff_le, h1, h2]
      omega
    · simp [ge_iff_le, h1, h2]
      omega
  · simp [ge_iff_le, h1]

/-- ANDing a 32-bit value with a contiguous mask clears its low host
bits: the result is the value rounded down to a multiple of the host
block size. -/
theorem land_mask_eq (a p : Nat) (ha : a < 4294967296) (hp : p ≤ 32) :
    a &&& cidrMaskInt p = a / 2 ^ (32 - p) * 2 ^ (32 - p) := by
  have hr : a / 2 ^ (32 - p) * 2 ^ (32 - p) = (a >>> (32 - p)) <<< (32 - p) := by
    rw [Nat.shiftRight_eq_div_pow, Nat.shiftLeft_eq]
  apply Nat.eq_of_testBit_eq
  intro j
  rw [Nat.testBit_land, cidrMaskInt_testBit p hp j, hr, Nat.testBit_shiftLeft,
    Nat.testBit_shiftRight]
  by_cases h1 : 32 - p ≤ j
  · by_cases h2 : j < 32
    · have harg : 32 - p + (j - (32 - p)) = j := by omega
      simp [ge_iff_le, h1, h2, harg]
    · have hb : a.testBit j = false := by
        apply Nat.testBit_lt_two_pow
        calc a < 4294967296 := ha
        _ = 2 ^ 32 := by norm_num
        _ ≤ 2 ^ j := Nat.pow_le_pow_right (by norm_num) (by omega)
      have harg : 32 - p + (j - (32 - p)) = j := by omega
      simp [ge_iff_le, h1, h2, harg, hb]
  · simp [ge_iff_le, h1]

/-- Contiguous-mask recognition is exact on generated masks. -/
theorem maskToCIDR_cidrMaskInt : ∀ p, p < 33 → maskToCIDR? (cidrMaskInt p) = some p := by
  decide

/-- A recognised mask really is the generated pattern of its CIDR value. -/
theorem maskToCIDR_sound (m p : Nat) (h : maskToCIDR? m = some p) :
    cidrMaskInt p = m ∧ p ≤ 32 := by
  refine ⟨?_, ?_⟩
  · have := List.find?_some h
    simpa using this
  · have := List.mem_of_find?_eq_some h
    simp only [List.mem_range] at this
    omega

/-- Non-contiguous masks are rejected. -/
theorem maskToCIDR_none (m : Nat) (h : ∀ p, p ≤ 32 → cidrMaskInt p ≠ m) :
    maskToCIDR? m = none := by
  apply List.find?_eq_none.mpr
  intro p hp
  simp only [List.mem_range] at hp
  simp only [beq_iff_eq]
  exact h p (by omega)

/-! ### Subnet calculator -/

/-- Bitwise complement within the 32-bit domain: valid because every
mask is at most 0xFFFFFFFF, so subtraction flips exactly its bits. -/
def not32 (m : Nat) : Nat := 4294967295 - m

/-- Derived subnet snapshot, mirroring the fields printed by the
subnet-info command. -/
structure SubnetInfo where
  networkAddress : String
  broadcastAddress : String
  firstUsableHost : String
  lastUsableHost : String
  totalHosts : Nat
  usableHosts : Nat
deriving DecidableEq, Repr

/-- Modelled from the spec: `getSubnetInfo` of the ip-navigator library
(not in the repository), on the parsed address value and CIDR value,
with the edge-case policy of spec section 4.2: /32 one host, /31
point-to-point, otherwise network+1 .. broadcast-1. -/
def getSubnetInfoInt (a p : Nat) : SubnetInfo :=
  let m := cidrMaskInt p
  let net := a &&& m
  let bc := net ||| not32 m
  if p = 32 then
    ⟨integerToIP net, integerToIP bc, integerToIP a, integerToIP a, 1, 1⟩
  else if p = 31 then
    ⟨integerToIP net, integerToIP bc, integerToIP net, integerToIP bc, 2, 2⟩
  else
    ⟨integerToIP net, integerToIP bc, integerToIP (net + 1), integerToIP (bc - 1),
      2 ^ (32 - p), 2 ^ (32 - p) - 2⟩

/-- Modelled from the spec: string-level `getSubnetInfo` (ip-navigator,
not in the repository): parse the address and the mask, then derive. -/
def getSubnetInfo? (address mask : String) : Option SubnetInfo :=
  match ipToInteger? address, subnetMaskToCIDR? mask with
  | some a, some p => some (getSubnetInfoInt a p)
  | _, _ => none

/-- Modelled from the spec: `isIPAddressInSubnet` of the ip-navigator
library (not in the repository): the address and the network argument
are both normalized by AND with the mask and compared. -/
def isIPAddressInSubnet (address network mask : String) : Bool :=
  match ipToInteger? address, ipToInteger? network, ipToInteger? mask with
  | some a, some n, some m => (a &&& m) == (n &&& m)
  | _, _, _ => false

example : isIPAddressInSubnet "192.168.1.50" "192.168.1.0" "255.255.255.0" = true := by decide
example : isIPAddressInSubnet "192.168.2.50" "192.168.1.0" "255.255.255.0" = false := by decide

/-! ### Address sequencer -/

/-- Modelled from the spec: `compareIPAddresses` of the ip-navigator
library (not in the repository): three-way numeric comparison of the
integer values (0 on unparsable input, which the CLI never passes). -/
def compareIPAddresses (s t : String) : Int :=
  match ipToInteger? s, ipToInteger? t with
  | some a, some b => if a < b then -1 else if b < a then 1 else 0
  | _, _ => 0

/-- The integer values of an inclusive range, in increasing order. -/
def getIPRangeInt (a b : Nat) : List Nat :=
  (List.range (b + 1 - a)).map (fun i => a + i)

/-- Modelled from the spec: `getIPRange` of the ip-navigator library
(not in the repository): every address from start to end inclusive in
increasing numeric order; fails (InvalidRange) when start > end. -/
def getIPRange? (s e : String) : Option (List String) :=
  match ipToInteger? s, ipToInteger? e with
  | some a, some b =>
    if b < a then none else some ((getIPRangeInt a b).map integerToIP)
  | _, _ => none

example : getIPRange? "192.168.1.1" "192.168.1.3" =
    some ["192.168.1.1", "192.168.1.2", "192.168.1.3"] := by decide

/-- Modelled from the spec: `isPrivateIP` of the ip-navigator library
(not in the repository): RFC 1918 membership decided on the first two
octets of the parsed value. -/
def isPrivateIP (s : String) : Bool :=
  match ipToInteger? s with
  | some a =>
    let o1 := a / 16777216 % 256
    let o2 := a / 65536 % 256
    (o1 == 10) || (o1 == 172 && (decide (16 ≤ o2) && decide (o2 ≤ 31))) ||
      (o1 == 192 && o2 == 168)
  | none => false

/-- Modelled from the spec: `isPublicIP` of the ip-navigator library
(not in the repository): public means valid and not RFC 1918 private. -/
def isPublicIP (s : String) : Bool :=
  match ipToInteger? s with
  | some _ => ! isPrivateIP s
  | none => false

example : isPrivateIP "192.168.1.1" = true := by decide
example : isPublicIP "8.8.8.8" = true := by decide
example : isPrivateIP "172.15.0.1" = false := by decide
example : isPrivateIP "172.16.0.1" = true := by decide

/-! ### JS parseInt model and CLI command embeddings

The command embeddings below are translated from the TypeScript sources
(src/src/lib/commands and the operation/conversion command files):
validity gating and exit codes mirror the `process.exit` calls, integer
option parsing mirrors `parseInt(x, 10)`.  Output-producing commands are
modelled by the list of addresses they print in `--plain` mode (`none`
standing for exit code 1 before any address is produced). -/

/-- ASCII whitespace skipped by JS `parseInt`. -/
def isSpaceChar (ch : Char) : Bool :=
  ch == ' ' || ch == '\t' || ch == '\n' || ch == '\r' || ch == '\x0b' || ch == '\x0c'

/-- Longest leading run of decimal digits, `none` when there is none. -/
def leadDigits? (l : List Char) : Option Nat :=
  let d := l.takeWhile Char.isDigit
  if d.isEmpty then none else some (decValue d)

/-- JavaScript `parseInt(s, 10)`: skip leading whitespace, take an
optional sign and then the longest prefix of decimal digits; NaN
(`none`) when no digit follows.  Trailing characters are ignored.
(Float rounding of parseInt above 2^53 cannot change any comparison
against the bounds 4294967295 or 32 used by the CLI, so the exact
integer model is observationally equivalent here.) -/
def jsParseInt? (s : String) : Option Int :=
  match s.data.dropWhile isSpaceChar with
  | '-' :: rest => (leadDigits? rest).map (fun n => -(n : Int))
  | '+' :: rest => (leadDigits? rest).map (fun n => (n : Int))
  | l => (leadDigits? l).map (fun n => (n : Int))

example : jsParseInt? "42abc" = some 42 := by decide
example : jsParseInt? "3.7" = some 3 := by decide
example : jsParseInt? "  -12x" = some (-12) := by decide
example : jsParseInt? "abc" = none := by decide
example : jsParseInt? "" = none := by decide

/-- A string that is entirely a plain decimal integer (optional sign,
then digits only); the spec's no-coercion policy concerns exactly the
inputs for which this is false. -/
def isPlainDecimal (s : String) : Bool :=
  match s.data with
  | '-' :: rest => !rest.isEmpty && rest.all Char.isDigit
  | '+' :: rest => !rest.isEmpty && rest.all Char.isDigit
  | l => !l.isEmpty && l.all Char.isDigit

/-- The from-integer command: `parseInt(number, 10)`, reject NaN and
values outside [0, 4294967295], else print `integerToIP(integer)`. -/
def fromIntegerCmd (number : String) : Option String :=
  match jsParseInt? number with
  | none => none
  | some i => if i < 0 ∨ (4294967295 : Int) < i then none else some (integerToIP i.toNat)

/-- The cidr-to-mask command: `parseInt(prefix, 10)`, reject NaN and
values outside [0, 32], else print `cidrToSubnetMask(prefixNum)`. -/
def cidrToMaskCmd (pfx : String) : Option String :=
  match jsParseInt? pfx with
  | none => none
  | some i => if i < 0 ∨ (32 : Int) < i then none else some (cidrToSubnetMask i.toNat)

/-- Modelled from the spec: `isValidCIDR` of the ip-navigator library
(not in the repository): `address/p` with a valid address and an
integer p in [0,32]. -/
def isValidCIDR (s : String) : Bool :=
  match splitOnChar '/' s.data with
  | [addr, pfx] =>
    (ipToIntegerL? addr).isSome &&
      (match parseDec? pfx with
       | some p => decide (p ≤ 32)
       | none => false)
  | _ => false

example : isValidCIDR "192.168.1.0/24" = true := by decide
example : isValidCIDR "192.168.1.0/33" = false := by decide
example : isValidCIDR "192.168.1.0" = false := by decide

/-- Exit code of validate-ip: both output modes exit 0 on a valid
address and 1 otherwise. -/
def validateIpCmdExit (plain : Bool) (address : String) : Nat :=
  if plain then (if isValidIPAddress address then 0 else 1)
  else if isValidIPAddress address then 0 else 1

/-- Exit code of validate-mask. -/
def validateMaskCmdExit (plain : Bool) (mask : String) : Nat :=
  if plain then (if isValidSubnetMask mask then 0 else 1)
  else if isValidSubnetMask mask then 0 else 1

/-- Exit code of validate-cidr. -/
def validateCidrCmdExit (plain : Bool) (cidr : String) : Nat :=
  if plain then (if isValidCIDR cidr then 0 else 1)
  else if isValidCIDR cidr then 0 else 1

/-- Exit code of in-subnet: input gating exits 1, then both output
modes exit 0 exactly when the membership test is true. -/
def inSubnetCmdExit (plain : Bool) (address network mask : String) : Nat :=
  if isValidIPAddress address = false then 1
  else if isValidIPAddress network = false then 1
  else if isValidSubnetMask mask = false then 1
  else if plain then (if isIPAddressInSubnet address network mask then 0 else 1)
  else if isIPAddressInSubnet address network mask then 0 else 1

/-- Plain-mode output of the classify command: "public" when
`isPublicIP`, "private" otherwise; `none` is exit 1 on invalid input. -/
def classifyCmdPlain (address : String) : Option String :=
  if isValidIPAddress address = false then none
  else some (if isPublicIP address then "public" else "private")

/-- Addresses printed by the range command in plain mode, with its exit
code: invalid inputs and start > end exit 1 printing no address. -/
def rangeCmdPlain (start e : String) : List String × Nat :=
  if isValidIPAddress start = false then ([], 1)
  else if isValidIPAddress e = false then ([], 1)
  else if 0 < compareIPAddresses start e then ([], 1)
  else match getIPRange? start e with
    | some l => (l, 0)
    | none => ([], 1)

/-- The cumulative step loop of the next/previous commands: starting
from the input address, apply the step and record the result, `count`
times (`current = step(current); results.push(current)`). -/
def stepList (step : String → String) (current : String) : Nat → List String
  | 0 => []
  | k + 1 => step current :: stepList step (step current) k

/-- The next command (count gating then the ascending loop of the
source); the step function stands for the library's
`getNextIPAddress`, whose boundary policy the spec leaves open. -/
def nextCmdResults (step : String → String) (address countStr : String) :
    Option (List String) :=
  if isValidIPAddress address = false then none
  else match jsParseInt? countStr with
  | none => none
  | some c =>
    if c < 1 ∨ (100 : Int) < c then none
    else some (stepList step address c.toNat)

/-- The previous command: the source's loop counts its index downward
but performs the same cumulative step-and-push `count` times, so the
printed address list has the same shape with `getPreviousIPAddress`. -/
def previousCmdResults (step : String → String) (address countStr : String) :
    Option (List String) :=
  if isValidIPAddress address = false then none
  else match jsParseInt? countStr with
  | none => none
  | some c =>
    if c < 1 ∨ (100 : Int) < c then none
    else some (stepList step address c.toNat)

/-- validate-batch in plain mode: the pairs (address, isValid), the
valid addresses in input order, and exit 1 exactly when some address is
invalid. -/
def validateBatchPlain (addresses : List String) : List String × Nat :=
  let results := addresses.map (fun address => (address, isValidIPAddress address))
  let validCount := (results.filter (fun r => r.2)).length
  let invalidCount := results.length - validCount
  ((results.filter (fun r => r.2)).map (fun r => r.1),
    if 0 < invalidCount then 1 else 0)

/-! ### Claim theorems -/

/-- Masks AND-ed with themselves are unchanged. -/
theorem land_self (m : Nat) : m &&& m = m := by
  apply Nat.eq_of_testBit_eq
  intro j
  rw [Nat.testBit_land, Bool.and_self]

/-- C3: cidrToMask and maskToCIDR form an exact isomorphism between
CIDR values in [0,32] and contiguous masks; cidrToMask fails
(OutOfRange) outside [0,32] and maskToCIDR fails (InvalidMask) on every
non-contiguous bit pattern; the round trip also holds through the
dotted-decimal mask strings. -/
theorem claim_c3_mask_cidr_iso :
    (∀ p, p ≤ 32 → maskToCIDR? (cidrMaskInt p) = some p)
    ∧ (∀ m p, maskToCIDR? m = some p → cidrMaskInt p = m ∧ p ≤ 32)
    ∧ (∀ q : Int, (q < 0 ∨ 32 < q) → cidrToMask? q = none)
    ∧ (∀ m, (∀ p, p ≤ 32 → cidrMaskInt p ≠ m) → maskToCIDR? m = none)
    ∧ (∀ p, p ≤ 32 → subnetMaskToCIDR? (cidrToSubnetMask p) = some p) := by
  refine ⟨?_, ?_, ?_, ?_, ?_⟩
  · intro p hp
    exact maskToCIDR_cidrMaskInt p (by omega)
  · intro m p h
    exact maskToCIDR_sound m p h
  · intro q hq
    unfold cidrToMask?
    rw [if_neg (by omega)]
  · exact maskToCIDR_none
  · intro p hp
    unfold subnetMaskToCIDR? cidrToSubnetMask
    rw [ipToInteger_integerToIP _ (cidrMaskInt_lt p), Option.some_bind]
    exact maskToCIDR_cidrMaskInt p (by omega)

/-- Witness for C3 at concrete inputs. -/
theorem claim_c3_witness :
    maskToCIDR? (cidrMaskInt 24) = some 24
    ∧ cidrToMask? (-3) = none
    ∧ cidrToMask? 33 = none
    ∧ subnetMaskToCIDR? (cidrToSubnetMask 24) = some 24 :=
  ⟨claim_c3_mask_cidr_iso.1 24 (by norm_num),
   claim_c3_mask_cidr_iso.2.2.1 (-3) (by norm_num),
   claim_c3_mask_cidr_iso.2.2.1 33 (by norm_num),
   claim_c3_mask_cidr_iso.2.2.2.2 24 (by norm_num)⟩

/-- Modelled from the spec: `calculateNetworkAddress` of the
ip-navigator library (not in the repository): bitwise AND of the parsed
address and mask values, rendered as dotted decimal. -/
def calculateNetworkAddress? (address mask : String) : Option String :=
  match ipToInteger? address, ipToInteger? mask with
  | some a, some m => some (integerToIP (a &&& m))
  | _, _ => none

/-- C4: for valid inputs, isInSubnet is true exactly when the network
addresses of the address and of the network argument under the mask
coincide, and the result is unchanged when the network argument is
replaced by its own network address under the same mask. -/
theorem claim_c4_in_subnet (address network mask : String) (a n m : Nat)
    (ha : ipToInteger? address = some a) (hn : ipToInteger? network = some n)
    (hm : ipToInteger? mask = some m) :
    (isIPAddressInSubnet address network mask = true ↔
      calculateNetworkAddress? address mask = calculateNetworkAddress? network mask)
    ∧ (isIPAddressInSubnet address network mask = true ↔ a &&& m = n &&& m)
    ∧ isIPAddressInSubnet address (integerToIP (n &&& m)) mask =
        isIPAddressInSubnet address network mask := by
  have hlt : n &&& m < 4294967296 :=
    lt_of_le_of_lt Nat.and_le_left (ipToInteger_lt network n hn)
  have hrt : ipToInteger? (integerToIP (n &&& m)) = some (n &&& m) :=
    ipToInteger_integerToIP _ hlt
  have hland : n &&& m &&& m = n &&& m := by
    rw [Nat.land_assoc, land_self]
  have hbase : isIPAddressInSubnet address network mask = true ↔ a &&& m = n &&& m := by
    unfold isIPAddressInSubnet
    rw [ha, hn, hm]
    simp
  refine ⟨?_, hbase, ?_⟩
  · rw [hbase]
    unfold calculateNetworkAddress?
    rw [ha, hn, hm]
    show a &&& m = n &&& m ↔ some (integerToIP (a &&& m)) = some (integerToIP (n &&& m))
    constructor
    · intro h
      rw [h]
    · intro h
      have h2 : ipToInteger? (integerToIP (a &&& m)) = ipToInteger? (integerToIP (n &&& m)) := by
        rw [Option.some.injEq] at h
        rw [h]
      rw [ipToInteger_integerToIP _ (lt_of_le_of_lt Nat.and_le_left
          (ipToInteger_lt address a ha)), hrt, Option.some.injEq] at h2
      exact h2
  · unfold isIPAddressInSubnet
    rw [ha, hn, hm, hrt]
    show (a &&& m == n &&& m &&& m) = (a &&& m == n &&& m)
    rw [hland]

/-- Witness for C4: the spec's two membership examples. -/
theorem claim_c4_witness :
    isIPAddressInSubnet "192.168.1.50" "192.168.1.0" "255.255.255.0" = true
    ∧ isIPAddressInSubnet "192.168.1.50"
        (integerToIP (3232235776 &&& 4294967040)) "255.255.255.0" =
        isIPAddressInSubnet "192.168.1.50" "192.168.1.0" "255.255.255.0" := by
  refine ⟨?_, ?_⟩
  · exact (claim_c4_in_subnet "192.168.1.50" "192.168.1.0" "255.255.255.0"
      3232235826 3232235776 4294967040 rfl rfl rfl).2.1.mpr (by decide)
  · exact (claim_c4_in_subnet "192.168.1.50" "192.168.1.0" "255.255.255.0"
      3232235826 3232235776 4294967040 rfl rfl rfl).2.2

/-- C6: every boolean-result command (validate-ip, validate-mask,
validate-cidr, in-subnet) exits 0 exactly when its boolean result is
true and 1 exactly when it is false, in both output modes. -/
theorem claim_c6_exit_codes :
    (∀ plain address, (validateIpCmdExit plain address = 0 ↔ isValidIPAddress address = true)
      ∧ (validateIpCmdExit plain address = 1 ↔ isValidIPAddress address = false))
    ∧ (∀ plain mask, (validateMaskCmdExit plain mask = 0 ↔ isValidSubnetMask mask = true)
      ∧ (validateMaskCmdExit plain mask = 1 ↔ isValidSubnetMask mask = false))
    ∧ (∀ plain cidr, (validateCidrCmdExit plain cidr = 0 ↔ isValidCIDR cidr = true)
      ∧ (validateCidrCmdExit plain cidr = 1 ↔ isValidCIDR cidr = false))
    ∧ (∀ plain address network mask,
        isValidIPAddress address = true → isValidIPAddress network = true →
        isValidSubnetMask mask = true →
        (inSubnetCmdExit plain address network mask = 0 ↔
          isIPAddressInSubnet address network mask = true)
        ∧ (inSubnetCmdExit plain address network mask = 1 ↔
          isIPAddressInSubnet address network mask = false)) := by
  refine ⟨?_, ?_, ?_, ?_⟩
  · intro plain address
    by_cases h : isValidIPAddress address <;> simp [validateIpCmdExit, h]
  · intro plain mask
    by_cases h : isValidSubnetMask mask <;> simp [validateMaskCmdExit, h]
  · intro plain cidr
    by_cases h : isValidCIDR cidr <;> simp [validateCidrCmdExit, h]
  · intro plain address network mask h1 h2 h3
    by_cases h : isIPAddressInSubnet address network mask <;>
      simp [inSubnetCmdExit, h1, h2, h3, h]

/-- Witness for C6 at concrete inputs in both output modes. -/
theorem claim_c6_witness :
    validateIpCmdExit true "192.168.1.1" = 0
    ∧ validateIpCmdExit false "1.2.3" = 1
    ∧ inSubnetCmdExit true "192.168.2.50" "192.168.1.0" "255.255.255.0" = 1 := by
  refine ⟨?_, ?_, ?_⟩
  · exact (claim_c6_exit_codes.1 true "192.168.1.1").1.mpr (by decide)
  · exact (claim_c6_exit_codes.1 false "1.2.3").2.mpr (by decide)
  · exact (claim_c6_exit_codes.2.2.2 true "192.168.2.50" "192.168.1.0" "255.255.255.0"
      (by decide) (by decide) (by decide)).2.mpr (by decide)

/-- The valid entries of the tagged batch list are the valid addresses
of the input, in order. -/
theorem batch_filter_map (f : String → Bool) (l : List String) :
    ((l.map (fun a => (a, f a))).filter (fun r => r.2)).map (fun r => r.1) =
      l.filter f := by
  induction l with
  | nil => rfl
  | cons x xs ih =>
    by_cases hx : f x <;> simp [List.filter_cons, hx, ih]

/-- A filter keeps the whole list exactly when the predicate holds
everywhere. -/
theorem filter_length_eq_iff (p : String → Bool) (l : List String) :
    (l.filter p).length = l.length ↔ ∀ a ∈ l, p a = true := by
  induction l with
  | nil => simp
  | cons x xs ih =>
    by_cases hx : p x
    · simp [List.filter_cons, hx, ih]
    · simp only [List.filter_cons, hx, Bool.false_eq_true, if_false, List.length_cons]
      constructor
      · intro h
        have := List.length_filter_le p xs
        omega
      · intro h
        exact absurd (h x (List.mem_cons_self x xs)) (by simp [hx])

/-- C10: validate-batch exits 0 exactly when every address of the batch
is a valid IPv4 address (1 when at least one is invalid), and its plain
output is exactly the valid addresses in input order. -/
theorem claim_c10_validate_batch (addresses : List String) (hne : addresses ≠ []) :
    ((validateBatchPlain addresses).2 = 0 ↔
      ∀ a ∈ addresses, isValidIPAddress a = true)
    ∧ ((validateBatchPlain addresses).2 = 1 ↔
      ∃ a ∈ addresses, isValidIPAddress a = false)
    ∧ (validateBatchPlain addresses).1 =
        addresses.filter (fun a => isValidIPAddress a) := by
  have hmap := batch_filter_map (fun a => isValidIPAddress a) addresses
  have hlen : ((addresses.map (fun a => (a, isValidIPAddress a))).filter
      (fun r => r.2)).length = (addresses.filter (fun a => isValidIPAddress a)).length := by
    rw [← hmap, List.length_map]
  have hle := List.length_filter_le (fun a => isValidIPAddress a) addresses
  have hiff := filter_length_eq_iff (fun a => isValidIPAddress a) addresses
  unfold validateBatchPlain
  simp only [hmap, hlen, List.length_map]
  refine ⟨?_, ?_, by trivial⟩
  · by_cases hz : (addresses.filter (fun a => isValidIPAddress a)).length = addresses.length
    · simp only [hz, Nat.sub_self, Nat.lt_irrefl, if_false]
      exact iff_of_true (by simp) (hiff.mp hz)
    · rw [if_pos (by omega)]
      exact iff_of_false (by omega) (fun h => hz (hiff.mpr h))
  · by_cases hz : (addresses.filter (fun a => isValidIPAddress a)).length = addresses.length
    · simp only [hz, Nat.sub_self, Nat.lt_irrefl, if_false]
      have hall := hiff.mp hz
      refine iff_of_false (by omega) ?_
      rintro ⟨a, hmem, hbad⟩
      exact absurd (hall a hmem) (by simp [hbad])
    · rw [if_pos (by omega)]
      refine iff_of_true (by simp) ?_
      by_contra hno
      push_neg at hno
      have hall : ∀ a ∈ addresses, isValidIPAddress a = true := by
        intro a hmem
        have hne2 := hno a hmem
        revert hne2
        cases isValidIPAddress a <;> simp
      exact absurd (hiff.mpr hall) hz

/-- Witness for C10 on a concrete two-address batch. -/
theorem claim_c10_witness :
    (validateBatchPlain ["192.168.1.1", "1.2.3"]).2 = 1
    ∧ (validateBatchPlain ["192.168.1.1", "1.2.3"]).1 = ["192.168.1.1"] := by
  refine ⟨?_, ?_⟩
  · exact (claim_c10_validate_batch ["192.168.1.1", "1.2.3"] (by simp)).2.1.mpr
      ⟨"1.2.3", by decide, by decide⟩
  · rw [(claim_c10_validate_batch ["192.168.1.1", "1.2.3"] (by simp)).2.2]
    decide

/-- C8 counterexample: the claim that from-integer fails on every input
that is not entirely a plain decimal integer is false: "3.7" has a
fractional part, yet the command succeeds on the coerced prefix 3 and
prints 0.0.0.3 (JS parseInt ignores the trailing ".7"). -/
theorem claim_c8_counterexample :
    isPlainDecimal "3.7" = false
    ∧ fromIntegerCmd "3.7" = some "0.0.0.3"
    ∧ cidrToMaskCmd "3.7" = some "224.0.0.0" := by
  refine ⟨by decide, by decide, by decide⟩

/-- C8 as amended: from-integer and cidr-to-mask gate their argument
through JS parseInt semantics: they fail exactly when the longest
leading decimal-integer prefix is absent (NaN) or its value is outside
the command's range; otherwise they succeed on that prefix value,
silently ignoring any trailing characters. -/
theorem claim_c8_parseint_gate (s : String) :
    (jsParseInt? s = none → fromIntegerCmd s = none ∧ cidrToMaskCmd s = none)
    ∧ (∀ i : Int, jsParseInt? s = some i →
        ((i < 0 ∨ 4294967295 < i) → fromIntegerCmd s = none)
        ∧ (0 ≤ i → i ≤ 4294967295 → fromIntegerCmd s = some (integerToIP i.toNat))
        ∧ ((i < 0 ∨ 32 < i) → cidrToMaskCmd s = none)
        ∧ (0 ≤ i → i ≤ 32 → cidrToMaskCmd s = some (cidrToSubnetMask i.toNat))) := by
  constructor
  · intro h
    unfold fromIntegerCmd cidrToMaskCmd
    rw [h]
    exact ⟨rfl, rfl⟩
  · intro i h
    refine ⟨?_, ?_, ?_, ?_⟩
    · intro hout
      unfold fromIntegerCmd
      rw [h]
      show (if i < 0 ∨ (4294967295 : Int) < i then none else some (integerToIP i.toNat)) = none
      rw [if_pos hout]
    · intro h0 h1
      unfold fromIntegerCmd
      rw [h]
      show (if i < 0 ∨ (4294967295 : Int) < i then none else some (integerToIP i.toNat)) =
        some (integerToIP i.toNat)
      rw [if_neg (by omega)]
    · intro hout
      unfold cidrToMaskCmd
      rw [h]
      show (if i < 0 ∨ (32 : Int) < i then none else some (cidrToSubnetMask i.toNat)) = none
      rw [if_pos hout]
    · intro h0 h1
      unfold cidrToMaskCmd
      rw [h]
      show (if i < 0 ∨ (32 : Int) < i then none else some (cidrToSubnetMask i.toNat)) =
        some (cidrToSubnetMask i.toNat)
      rw [if_neg (by omega)]

/-- Witness for amended C8 at concrete inputs. -/
theorem claim_c8_witness :
    fromIntegerCmd "abc" = none
    ∧ fromIntegerCmd "-1" = none
    ∧ fromIntegerCmd "42abc" = some (integerToIP 42)
    ∧ cidrToMaskCmd "33" = none
    ∧ cidrToMaskCmd "24" = some (cidrToSubnetMask 24) := by
  refine ⟨?_, ?_, ?_, ?_, ?_⟩
  · exact ((claim_c8_parseint_gate "abc").1 (by decide)).1
  · exact (((claim_c8_parseint_gate "-1").2 (-1) (by decide)).1 (by norm_num))
  · exact (((claim_c8_parseint_gate "42abc").2 42 (by decide)).2.1 (by norm_num) (by norm_num))
  · exact (((claim_c8_parseint_gate "33").2 33 (by decide)).2.2.1 (by norm_num))
  · exact (((claim_c8_parseint_gate "24").2 24 (by decide)).2.2.2 (by norm_num) (by norm_num))

/-- The step loop has exactly `count` entries. -/
theorem stepList_length (step : String → String) (current : String) (n : Nat) :
    (stepList step current n).length = n := by
  induction n generalizing current with
  | zero => rfl
  | succ k ih => simp [stepList, ih]

/-- The i-th entry of the step loop (0-based) is the step applied i+1
times to the starting address: the loop prints iterates in application
order. -/
theorem stepList_get (step : String → String) (current : String) (n i : Nat)
    (h : i < (stepList step current n).length) :
    (stepList step current n).get ⟨i, h⟩ = step^[i + 1] current := by
  induction n generalizing current i with
  | zero => simp [stepList_length] at h
  | succ k ih =>
    cases i with
    | zero => simp [stepList]
    | succ j =>
      have hlt : j < (stepList step (step current) k).length := by
        simp [stepList_length] at h ⊢
        omega
      show (stepList step (step current) k).get ⟨j, hlt⟩ = step^[j + 1 + 1] current
      rw [ih (step current) j hlt]
      rw [← Function.iterate_succ_apply]

/-- C9: for a valid address and a count that parseInt reads as an
integer in [1,100], the next and previous commands print exactly the
first count iterates of their respective step functions in application
order; for a NaN count or one outside [1,100] both commands exit 1
before producing any address.  The step functions are parameters
standing for the library's getNextIPAddress / getPreviousIPAddress,
whose boundary policy the spec leaves open. -/
theorem claim_c9_next_previous (stepNext stepPrev : String → String)
    (address countStr : String) (hva : isValidIPAddress address = true) :
    (∀ c : Int, jsParseInt? countStr = some c → 1 ≤ c → c ≤ 100 →
      nextCmdResults stepNext address countStr = some (stepList stepNext address c.toNat)
      ∧ previousCmdResults stepPrev address countStr = some (stepList stepPrev address c.toNat)
      ∧ (stepList stepNext address c.toNat).length = c.toNat
      ∧ (∀ i (h : i < (stepList stepNext address c.toNat).length),
          (stepList stepNext address c.toNat).get ⟨i, h⟩ = stepNext^[i + 1] address)
      ∧ (∀ i (h : i < (stepList stepPrev address c.toNat).length),
          (stepList stepPrev address c.toNat).get ⟨i, h⟩ = stepPrev^[i + 1] address))
    ∧ (jsParseInt? countStr = none →
        nextCmdResults stepNext address countStr = none
        ∧ previousCmdResults stepPrev address countStr = none)
    ∧ (∀ c : Int, jsParseInt? countStr = some c → (c < 1 ∨ 100 < c) →
        nextCmdResults stepNext address countStr = none
        ∧ previousCmdResults stepPrev address countStr = none) := by
  refine ⟨?_, ?_, ?_⟩
  · intro c hc h1 h100
    have hnot : ¬(c < 1 ∨ (100 : Int) < c) := by omega
    refine ⟨?_, ?_, stepList_length _ _ _,
      fun i h => stepList_get stepNext address c.toNat i h,
      fun i h => stepList_get stepPrev address c.toNat i h⟩
    · unfold nextCmdResults
      rw [hva]
      show (match jsParseInt? countStr with
        | none => none
        | some c => if c < 1 ∨ (100 : Int) < c then none
            else some (stepList stepNext address c.toNat)) = _
      rw [hc]
      show (if c < 1 ∨ (100 : Int) < c then none
        else some (stepList stepNext address c.toNat)) = _
      rw [if_neg hnot]
    · unfold previousCmdResults
      rw [hva]
      show (match jsParseInt? countStr with
        | none => none
        | some c => if c < 1 ∨ (100 : Int) < c then none
            else some (stepList stepPrev address c.toNat)) = _
      rw [hc]
      show (if c < 1 ∨ (100 : Int) < c then none
        else some (stepList stepPrev address c.toNat)) = _
      rw [if_neg hnot]
  · intro hc
    constructor
    · unfold nextCmdResults
      rw [hva]
      show (match jsParseInt? countStr with
        | none => none
        | some c => if c < 1 ∨ (100 : Int) < c then none
            else some (stepList stepNext address c.toNat)) = none
      rw [hc]
    · unfold previousCmdResults
      rw [hva]
      show (match jsParseInt? countStr with
        | none => none
        | some c => if c < 1 ∨ (100 : Int) < c then none
            else some (stepList stepPrev address c.toNat)) = none
      rw [hc]
  · intro c hc hout
    constructor
    · unfold nextCmdResults
      rw [hva]
      show (match jsParseInt? countStr with
        | none => none
        | some c => if c < 1 ∨ (100 : Int) < c then none
            else some (stepList stepNext address c.toNat)) = none
      rw [hc]
      show (if c < 1 ∨ (100 : Int) < c then none
        else some (stepList stepNext address c.toNat)) = none
      rw [if_pos hout]
    · unfold previousCmdResults
      rw [hva]
      show (match jsParseInt? countStr with
        | none => none
        | some c => if c < 1 ∨ (100 : Int) < c then none
            else some (stepList stepPrev address c.toNat)) = none
      rw [hc]
      show (if c < 1 ∨ (100 : Int) < c then none
        else some (stepList stepPrev address c.toNat)) = none
      rw [if_pos hout]

/-- Witness for C9 with a concrete step function and inputs. -/
theorem claim_c9_witness :
    nextCmdResults (fun s => integerToIP (ipNum s + 1)) "10.0.0.1" "2" =
      some (stepList (fun s => integerToIP (ipNum s + 1)) "10.0.0.1" 2)
    ∧ nextCmdResults (fun s => integerToIP (ipNum s + 1)) "10.0.0.1" "0" = none
    ∧ previousCmdResults (fun s => integerToIP (ipNum s - 1)) "10.0.0.1" "abc" = none := by
  refine ⟨?_, ?_, ?_⟩
  · exact ((claim_c9_next_previous (fun s => integerToIP (ipNum s + 1))
      (fun s => integerToIP (ipNum s - 1)) "10.0.0.1" "2" (by decide)).1 2
      (by decide) (by norm_num) (by norm_num)).1
  · exact ((claim_c9_next_previous (fun s => integerToIP (ipNum s + 1))
      (fun s => integerToIP (ipNum s - 1)) "10.0.0.1" "0" (by decide)).2.2 0
      (by decide) (by norm_num)).1
  · exact ((claim_c9_next_previous (fun s => integerToIP (ipNum s + 1))
      (fun s => integerToIP (ipNum s - 1)) "10.0.0.1" "abc" (by decide)).2.1
      (by decide)).2

/-- /32 case of the subnet snapshot: network, broadcast and both usable
hosts all collapse to the address itself. -/
theorem getSubnetInfoInt_32 (a : Nat) (ha : a < 4294967296) :
    getSubnetInfoInt a 32 =
      ⟨integerToIP a, integerToIP a, integerToIP a, integerToIP a, 1, 1⟩ := by
  have hland : a &&& cidrMaskInt 32 = a := by
    rw [land_mask_eq a 32 ha (le_refl 32)]
    simp
  have hnot : not32 (cidrMaskInt 32) = 0 := rfl
  simp [getSubnetInfoInt, hland, hnot, Nat.or_zero]

/-- /31 case of the subnet snapshot: both usable hosts are the network
and broadcast addresses, two hosts in total. -/
theorem getSubnetInfoInt_31 (a : Nat) :
    getSubnetInfoInt a 31 =
      ⟨integerToIP (a &&& cidrMaskInt 31),
        integerToIP ((a &&& cidrMaskInt 31) ||| not32 (cidrMaskInt 31)),
        integerToIP (a &&& cidrMaskInt 31),
        integerToIP ((a &&& cidrMaskInt 31) ||| not32 (cidrMaskInt 31)), 2, 2⟩ := by
  simp [getSubnetInfoInt]

/-- General case of the subnet snapshot for p at most 30. -/
theorem getSubnetInfoInt_le30 (a p : Nat) (hp : p ≤ 30) :
    getSubnetInfoInt a p =
      ⟨integerToIP (a &&& cidrMaskInt p),
        integerToIP ((a &&& cidrMaskInt p) ||| not32 (cidrMaskInt p)),
        integerToIP ((a &&& cidrMaskInt p) + 1),
        integerToIP (((a &&& cidrMaskInt p) ||| not32 (cidrMaskInt p)) - 1),
        2 ^ (32 - p), 2 ^ (32 - p) - 2⟩ := by
  simp [getSubnetInfoInt, show p ≠ 32 by omega, show p ≠ 31 by omega]

/-- C2: subnetInfo reproduces the spec's edge-case policy exactly: /32
one single host equal to the address, /31 the point-to-point pair
network/broadcast, and for p at most 30 the 2^(32-p) host block with
the network+1 .. broadcast-1 usable range. -/
theorem claim_c2_subnet_info (address mask : String) (a p : Nat)
    (ha : ipToInteger? address = some a) (hm : subnetMaskToCIDR? mask = some p) :
    ∃ info, getSubnetInfo? address mask = some info
      ∧ (p = 32 → info.totalHosts = 1 ∧ info.usableHosts = 1
          ∧ info.firstUsableHost = integerToIP a ∧ info.lastUsableHost = integerToIP a
          ∧ info.networkAddress = integerToIP a ∧ info.broadcastAddress = integerToIP a)
      ∧ (p = 31 → info.totalHosts = 2 ∧ info.usableHosts = 2
          ∧ info.firstUsableHost = info.networkAddress
          ∧ info.lastUsableHost = info.broadcastAddress)
      ∧ (p ≤ 30 → info.totalHosts = 2 ^ (32 - p)
          ∧ info.usableHosts = 2 ^ (32 - p) - 2
          ∧ info.networkAddress = integerToIP (a &&& cidrMaskInt p)
          ∧ info.broadcastAddress =
              integerToIP ((a &&& cidrMaskInt p) ||| not32 (cidrMaskInt p))
          ∧ info.firstUsableHost = integerToIP ((a &&& cidrMaskInt p) + 1)
          ∧ info.lastUsableHost =
              integerToIP (((a &&& cidrMaskInt p) ||| not32 (cidrMaskInt p)) - 1)) := by
  have halt : a < 4294967296 := ipToInteger_lt address a ha
  refine ⟨getSubnetInfoInt a p, ?_, ?_, ?_, ?_⟩
  · unfold getSubnetInfo?
    rw [ha, hm]
  · intro h32
    subst h32
    rw [getSubnetInfoInt_32 a halt]
    exact ⟨rfl, rfl, rfl, rfl, rfl, rfl⟩
  · intro h31
    subst h31
    rw [getSubnetInfoInt_31 a]
    exact ⟨rfl, rfl, rfl, rfl⟩
  · intro hp
    rw [getSubnetInfoInt_le30 a p hp]
    exact ⟨rfl, rfl, rfl, rfl, rfl, rfl⟩

/-- Witness for C2: the spec's /24, /31 and /32 concrete examples. -/
theorem claim_c2_witness :
    getSubnetInfo? "10.0.0.5" "255.255.255.255" =
      some ⟨"10.0.0.5", "10.0.0.5", "10.0.0.5", "10.0.0.5", 1, 1⟩
    ∧ getSubnetInfo? "10.0.0.1" "255.255.255.0" =
      some ⟨"10.0.0.0", "10.0.0.255", "10.0.0.1", "10.0.0.254", 256, 254⟩ := by
  constructor
  · obtain ⟨info, hinfo, h32, -, -⟩ :=
      claim_c2_subnet_info "10.0.0.5" "255.255.255.255" 167772165 32 rfl (by decide)
    obtain ⟨ht, hu, hf, hl, hn, hb⟩ := h32 rfl
    rw [hinfo]
    congr 1
    cases info
    simp only at ht hu hf hl hn hb
    subst ht hu hf hl hn hb
    decide
  · obtain ⟨info, hinfo, -, -, hle⟩ :=
      claim_c2_subnet_info "10.0.0.1" "255.255.255.0" 167772161 24 rfl (by decide)
    obtain ⟨ht, hu, hn, hb, hf, hl⟩ := hle (by norm_num)
    rw [hinfo]
    congr 1
    cases info
    simp only at ht hu hf hl hn hb
    subst ht hu hf hl hn hb
    decide

/-- Unfolding of the classifier on a parsed address. -/
theorem isPrivateIP_parsed (s : String) (a : Nat) (ha : ipToInteger? s = some a) :
    isPrivateIP s =
      ((a / 16777216 % 256 == 10)
        || (a / 16777216 % 256 == 172 &&
            (decide (16 ≤ a / 65536 % 256) && decide (a / 65536 % 256 ≤ 31)))
        || (a / 16777216 % 256 == 192 && a / 65536 % 256 == 168)) := by
  unfold isPrivateIP
  rw [ha]

/-- C5: exactly one of isPublic and isPrivate holds on every valid
address; isPrivate holds exactly when the address lies in one of the
three RFC 1918 blocks (network-address test under /8, /12, /16); and
the classify command's plain output says "private" exactly when
isPrivate holds and "public" exactly when isPublic holds. -/
theorem claim_c5_classification (s : String) (a : Nat) (ha : ipToInteger? s = some a) :
    (isPublicIP s = ! isPrivateIP s)
    ∧ (isPrivateIP s = true ↔
        (a &&& cidrMaskInt 8 = 167772160 ∨ a &&& cidrMaskInt 12 = 2886729728
          ∨ a &&& cidrMaskInt 16 = 3232235520))
    ∧ (classifyCmdPlain s = some "private" ↔ isPrivateIP s = true)
    ∧ (classifyCmdPlain s = some "public" ↔ isPublicIP s = true) := by
  have halt : a < 4294967296 := ipToInteger_lt s a ha
  have hpub : isPublicIP s = ! isPrivateIP s := by
    unfold isPublicIP
    rw [ha]
  have hv : isValidIPAddress s = true := by
    unfold isValidIPAddress
    rw [ha]
    rfl
  refine ⟨hpub, ?_, ?_, ?_⟩
  · have h8 : a &&& cidrMaskInt 8 = a / 16777216 * 16777216 := by
      rw [land_mask_eq a 8 halt (by norm_num)]
      norm_num
    have h12 : a &&& cidrMaskInt 12 = a / 1048576 * 1048576 := by
      rw [land_mask_eq a 12 halt (by norm_num)]
      norm_num
    have h16 : a &&& cidrMaskInt 16 = a / 65536 * 65536 := by
      rw [land_mask_eq a 16 halt (by norm_num)]
      norm_num
    rw [isPrivateIP_parsed s a ha, h8, h12, h16]
    simp only [Bool.or_eq_true, Bool.and_eq_true, beq_iff_eq, decide_eq_true_eq]
    have d1 : a / 65536 / 256 = a / 16777216 := by rw [Nat.div_div_eq_div_mul]
    have d2 : a / 65536 / 16 = a / 1048576 := by rw [Nat.div_div_eq_div_mul]
    have d3 : a / 1048576 / 16 = a / 16777216 := by rw [Nat.div_div_eq_div_mul]
    omega
  · unfold classifyCmdPlain
    rw [if_neg (by simp [hv])]
    by_cases hp : isPrivateIP s
    · rw [hpub, hp]
      simp
    · rw [hpub]
      simp only [hp]
      simp only [Bool.not_false, if_true]
      constructor
      · intro h
        exact absurd (Option.some.injEq _ _ ▸ h) (by decide)
      · intro h
        simp [hp] at h
  · unfold classifyCmdPlain
    rw [if_neg (by simp [hv])]
    rw [hpub]
    by_cases hp : isPrivateIP s
    · simp only [hp, Bool.not_true, if_false]
      constructor
      · intro h
        exact absurd (Option.some.injEq _ _ ▸ h) (by decide)
      · intro h
        simp at h
    · simp [hp]

/-- Witness for C5: one private and one public concrete address. -/
theorem claim_c5_witness :
    (isPrivateIP "192.168.1.1" = true)
    ∧ isPublicIP "192.168.1.1" = ! isPrivateIP "192.168.1.1"
    ∧ classifyCmdPlain "8.8.8.8" = some "public" := by
  refine ⟨?_, ?_, ?_⟩
  · exact (claim_c5_classification "192.168.1.1" 3232235777 rfl).2.1.mpr
      (Or.inr (Or.inr (by decide)))
  · exact (claim_c5_classification "192.168.1.1" 3232235777 rfl).1
  · exact (claim_c5_classification "8.8.8.8" 134744072 rfl).2.2.2.mpr (by decide)

/-- Unfolding of the comparison on parsed addresses. -/
theorem compareIPAddresses_parsed (s t : String) (a b : Nat)
    (ha : ipToInteger? s = some a) (hb : ipToInteger? t = some b) :
    compareIPAddresses s t = if a < b then -1 else if b < a then 1 else 0 := by
  unfold compareIPAddresses
  rw [ha, hb]

/-- Numeric value of a printed 32-bit integer. -/
theorem ipNum_integerToIP (n : Nat) (h : n < 4294967296) :
    ipNum (integerToIP n) = n := by
  unfold ipNum
  rw [ipToInteger_integerToIP n h]
  rfl

/-- Membership in the integer range list is exactly the closed interval. -/
theorem getIPRangeInt_mem (a b n : Nat) (hab : a ≤ b) :
    n ∈ getIPRangeInt a b ↔ (a ≤ n ∧ n ≤ b) := by
  unfold getIPRangeInt
  simp only [List.mem_map, List.mem_range]
  constructor
  · rintro ⟨i, hi, rfl⟩
    omega
  · rintro ⟨h1, h2⟩
    exact ⟨n - a, by omega, by omega⟩

/-- C1: with both endpoints valid and start not above end, the range
operation succeeds, the CLI exits 0 printing the whole list, the list
has length end - start + 1, its i-th entry is the address with integer
value start + i (hence every address of the interval appears, exactly
once, in increasing numeric order); with start above end the range
operation fails (InvalidRange) and the CLI exits 1 printing nothing. -/
theorem claim_c1_range (start e : String) (a b : Nat)
    (ha : ipToInteger? start = some a) (hb : ipToInteger? e = some b) :
    (compareIPAddresses start e ≤ 0 →
      ∃ l, getIPRange? start e = some l
        ∧ rangeCmdPlain start e = (l, 0)
        ∧ l.length = b - a + 1
        ∧ (∀ i, ∀ h : i < l.length, l.get ⟨i, h⟩ = integerToIP (a + i))
        ∧ (∀ n, n < 4294967296 → ((a ≤ n ∧ n ≤ b) ↔ integerToIP n ∈ l))
        ∧ List.Pairwise (fun x y => ipNum x < ipNum y) l)
    ∧ (0 < compareIPAddresses start e →
        getIPRange? start e = none ∧ rangeCmdPlain start e = ([], 1)) := by
  have hcmp := compareIPAddresses_parsed start e a b ha hb
  have halt : a < 4294967296 := ipToInteger_lt start a ha
  have hblt : b < 4294967296 := ipToInteger_lt e b hb
  have hvs : isValidIPAddress start = true := by
    unfold isValidIPAddress
    rw [ha]
    rfl
  have hve : isValidIPAddress e = true := by
    unfold isValidIPAddress
    rw [hb]
    rfl
  constructor
  · intro hle
    have hab : a ≤ b := by
      by_contra hcon
      push_neg at hcon
      rw [hcmp, if_neg (by omega), if_pos hcon] at hle
      norm_num at hle
    have hlen : ((getIPRangeInt a b).map integerToIP).length = b - a + 1 := by
      simp only [List.length_map, getIPRangeInt, List.length_range]
      omega
    have hget : ∀ i, ∀ h : i < ((getIPRangeInt a b).map integerToIP).length,
        ((getIPRangeInt a b).map integerToIP).get ⟨i, h⟩ = integerToIP (a + i) := by
      intro i h
      simp [getIPRangeInt, List.get_eq_getElem, List.getElem_map, List.getElem_range]
    have hrange : getIPRange? start e = some ((getIPRangeInt a b).map integerToIP) := by
      unfold getIPRange?
      rw [ha, hb]
      show (if b < a then none else some ((getIPRangeInt a b).map integerToIP)) = _
      rw [if_neg (by omega)]
    have hnotpos : ¬ 0 < compareIPAddresses start e := by
      rw [hcmp]
      split
      · norm_num
      · split
        · omega
        · norm_num
    refine ⟨(getIPRangeInt a b).map integerToIP, hrange, ?_, hlen, hget, ?_, ?_⟩
    · unfold rangeCmdPlain
      rw [if_neg (by simp [hvs]), if_neg (by simp [hve]), if_neg hnotpos, hrange]
    · intro n hn
      constructor
      · intro hmem
        exact List.mem_map.mpr ⟨n, (getIPRangeInt_mem a b n hab).mpr hmem, rfl⟩
      · intro hmem
        obtain ⟨m, hm, heq⟩ := List.mem_map.mp hmem
        have hmbd := (getIPRangeInt_mem a b m hab).mp hm
        have hmlt : m < 4294967296 := by omega
        have : some m = some n := by
          rw [← ipToInteger_integerToIP m hmlt, ← ipToInteger_integerToIP n hn, heq]
        rw [Option.some.injEq] at this
        omega
    · rw [List.pairwise_iff_getElem]
      intro i j hi hj hij
      have hi2 : i < ((getIPRangeInt a b).map integerToIP).length := hi
      have hj2 : j < ((getIPRangeInt a b).map integerToIP).length := hj
      have gi := hget i hi2
      have gj := hget j hj2
      rw [List.get_eq_getElem] at gi gj
      have hjb : a + j ≤ b := by
        rw [hlen] at hj2
        omega
      rw [gi, gj, ipNum_integerToIP (a + i) (by omega), ipNum_integerToIP (a + j) (by omega)]
      omega
  · intro hpos
    have hba : b < a := by
      rcases Nat.lt_trichotomy a b with h | h | h
      · rw [hcmp, if_pos h] at hpos
        norm_num at hpos
      · rw [hcmp, if_neg (by omega), if_neg (by omega)] at hpos
        norm_num at hpos
      · exact h
    constructor
    · unfold getIPRange?
      rw [ha, hb]
      show (if b < a then none else some ((getIPRangeInt a b).map integerToIP)) = none
      rw [if_pos hba]
    · unfold rangeCmdPlain
      rw [if_neg (by simp [hvs]), if_neg (by simp [hve]), if_pos hpos]

/-- Witness for C1: the spec's three-address example and a reversed
pair. -/
theorem claim_c1_witness :
    getIPRange? "10.0.0.5" "10.0.0.1" = none
    ∧ rangeCmdPlain "10.0.0.5" "10.0.0.1" = ([], 1)
    ∧ rangeCmdPlain "192.168.1.1" "192.168.1.3" =
        (["192.168.1.1", "192.168.1.2", "192.168.1.3"], 0) := by
  refine ⟨?_, ?_, ?_⟩
  · exact ((claim_c1_range "10.0.0.5" "10.0.0.1" 167772165 167772161 rfl rfl).2
      (by decide)).1
  · exact ((claim_c1_range "10.0.0.5" "10.0.0.1" 167772165 167772161 rfl rfl).2
      (by decide)).2
  · obtain ⟨l, hr, hcmd, -, -, -, -⟩ :=
      (claim_c1_range "192.168.1.1" "192.168.1.3" 3232235777 3232235779 rfl rfl).1
        (by decide)
    have hev : getIPRange? "192.168.1.1" "192.168.1.3" =
        some ["192.168.1.1", "192.168.1.2", "192.168.1.3"] := by decide
    rw [hr, Option.some.injEq] at hev
    rw [hcmd, hev]
